import Mathlib

/-!
Verification of the feature-importance module of the lynxes package
(src/lynxes/core/global_interpretation/feature_importance.py).

The module computes permutation-based feature importance: for each feature
column of a tabular dataset it replaces the column with a random resample of
its own values, re-runs the prediction function, and scores the feature by the
mean, over prediction-output columns, of the standard deviation over rows of
the change in predictions.  The per-feature scores are sorted and normalized
by their sum.

This file gives a shallow embedding of that computation.  Numeric values are
modelled as rationals; the square root inside the standard deviation is
modelled by a computable integer floor square root lifted to rationals (the
facts proved about it are only those shared with the real square root:
nonnegativity and the value zero at zero).  The DataManager collaborator is
not part of the analysed source, so its column operations are modelled from
the specification.  The matplotlib collaborator is an external library and is
modelled as an oracle describing the outcome of importing it.
-/

namespace Lynxes

/-- A tabular dataset: an ordered list of named feature columns, each column a
list of rational entries.  Modelled from the spec: the DataManager
collaborator (whose source is not part of the analysed file) exposes feature
enumeration, column read and write by identifier, and full-data read. -/
structure Dataset where
  features : List (String × List ℚ)
deriving DecidableEq

/-- The ordered feature identifiers of a dataset. -/
def Dataset.featureIds (d : Dataset) : List String :=
  d.features.map Prod.fst

/-- Read of a named column from an association list of columns. -/
def lookupCol (l : List (String × List ℚ)) (f : String) : List ℚ :=
  match l.find? (fun p => p.1 == f) with
  | some p => p.2
  | none => []

/-- Write of a named column into an association list of columns, replacing
the values stored under that identifier. -/
def writeCol (l : List (String × List ℚ)) (f : String) (v : List ℚ) :
    List (String × List ℚ) :=
  l.map (fun p => if p.1 == f then (p.1, v) else p)

/-- Modelled from the spec: DataManager column read by feature identifier. -/
def Dataset.getCol (d : Dataset) (f : String) : List ℚ :=
  lookupCol d.features f

/-- Modelled from the spec: DataManager column write by feature identifier,
replacing the values stored under that identifier. -/
def Dataset.setCol (d : Dataset) (f : String) (v : List ℚ) : Dataset :=
  ⟨writeCol d.features f v⟩

/-- Modelled from the spec: the DataManager constructor applied to the
original data yields a working copy with independent storage holding the same
columns, so later writes to the copy cannot reach the original. -/
def dataManagerCopy (d : Dataset) : Dataset :=
  ⟨d.features⟩

/-- Prediction output: one list of output values per input row (a regression
output is a one-element row; multi-class output has one entry per class). -/
abbrev Predictions := List (List ℚ)

/-- The prediction capability: a function from a dataset to predictions. -/
abbrev Predictor := Dataset → Predictions

/-- Modelled from the spec: the generate-column-sample operation of the
DataManager, indexed by feature identifier and sample count. -/
abbrev Sampler := String → Nat → List ℚ

/-- Arithmetic mean of a list, as computed by numpy (the empty case never
arises on reachable inputs; rational division by zero returns zero there). -/
def npMean (xs : List ℚ) : ℚ :=
  xs.sum / (xs.length : ℚ)

/-- Largest natural number at most the first argument whose square is at most
the second argument; structural recursion so that it evaluates by reduction. -/
def natSqrtBelow : Nat → Nat → Nat
  | 0, _ => 0
  | k + 1, n => if (k + 1) * (k + 1) ≤ n then k + 1 else natSqrtBelow k n

/-- Computable stand-in for the nonnegative square root on rationals,
using the integer floor square root of num times den over den.  The proofs
below use only properties it shares with the exact square root: it is
nonnegative everywhere and zero at zero. -/
def ratSqrt (q : ℚ) : ℚ :=
  (natSqrtBelow (q.num.toNat * q.den) (q.num.toNat * q.den) : ℚ) / (q.den : ℚ)

/-- Population standard deviation of a list (numpy std with ddof zero):
square root of the mean squared deviation from the mean. -/
def stdPop (xs : List ℚ) : ℚ :=
  ratSqrt (npMean (xs.map (fun x => (x - npMean xs) ^ 2)))

/-- The columns of a rectangular row-major matrix: entry j of the result
collects entry j of every row (out-of-range entries read as zero; numpy
inputs are rectangular so this case never arises on reachable data). -/
def colsOf (m : List (List ℚ)) : List (List ℚ) :=
  (List.range (m.headD []).length).map (fun j => m.map (fun row => row.getD j 0))

/-- Standard deviation across rows, one value per prediction-output column:
numpy std with axis zero.  A one-dimensional prediction vector is modelled as
single-entry rows, for which this returns the one overall standard
deviation. -/
def npStdAxis0 (m : List (List ℚ)) : List ℚ :=
  (colsOf m).map stdPop

/-- Elementwise difference of two row-major matrices, as numpy subtraction of
arrays of equal shape. -/
def matSub (a b : Predictions) : Predictions :=
  List.zipWith (fun r s => List.zipWith (fun x y => x - y) r s) a b

/-- The raw importance score the loop body computes for one feature: the mean
over prediction columns of the standard deviation over rows of the change in
predictions, where the predictions are taken on the dataset with the feature
column replaced by the drawn samples. -/
def scoreAt (d : Dataset) (predict : Predictor) (baseline : Predictions)
    (sampler : Sampler) (n : Nat) (f : String) : ℚ :=
  npMean (npStdAxis0 (matSub (predict (d.setCol f (sampler f n))) baseline))

/-- Instrumented record of one run of the per-feature loop: the association
list of raw scores built up, the state of the working copy at the start of
each iteration, the working copy left after the loop, and the datasets the
prediction function was applied to inside the loop, in call order. -/
structure LoopTrace where
  rawScores : List (String × ℚ)
  copyStarts : List Dataset
  finalCopy : Dataset
  loopCalls : List Dataset
deriving DecidableEq

/-- The per-feature loop of feature_importance: draw a column sample, write it
into the working copy, predict, score the change against the baseline, then
restore the working copy column from the original dataset before the next
feature. -/
def impLoop (orig : Dataset) (predict : Predictor) (baseline : Predictions)
    (sampler : Sampler) (n : Nat) : List String → Dataset → LoopTrace
  | [], copy => ⟨[], [], copy, []⟩
  | f :: fs, copy =>
    let samples := sampler f n
    let perturbed := copy.setCol f samples
    let newPredictions := predict perturbed
    let changes := matSub newPredictions baseline
    let score := npMean (npStdAxis0 changes)
    let restored := perturbed.setCol f (orig.getCol f)
    let rest := impLoop orig predict baseline sampler n fs restored
    ⟨(f, score) :: rest.rawScores, copy :: rest.copyStarts, rest.finalCopy,
      perturbed :: rest.loopCalls⟩

/-- The baseline predictions: the supplied ground truth when given, otherwise
the prediction function applied to the unperturbed dataset. -/
def baselineOf (d : Dataset) (predict : Predictor)
    (yTrue : Option Predictions) : Predictions :=
  match yTrue with
  | none => predict d
  | some ys => ys

/-- One full instrumented run of the engine loop: compute the baseline, take
the sample count n from its row count, create the working copy, and run the
loop over the dataset feature identifiers in order. -/
def engineTrace (d : Dataset) (predict : Predictor) (sampler : Sampler)
    (yTrue : Option Predictions) : LoopTrace :=
  let baseline := baselineOf d predict yTrue
  impLoop d predict baseline sampler baseline.length d.featureIds
    (dataManagerCopy d)

/-- The association list of raw (pre-normalization) importance scores, in
feature enumeration order, exactly as held by the importances dictionary of
the source before it is turned into a series. -/
def rawImportances (d : Dataset) (predict : Predictor) (sampler : Sampler)
    (yTrue : Option Predictions) : List (String × ℚ) :=
  (engineTrace d predict sampler yTrue).rawScores

/-- Every dataset the prediction function is applied to during one call, in
call order: the unperturbed dataset first when no ground truth is supplied,
then the per-feature perturbed working copies. -/
def predictCallLog (d : Dataset) (predict : Predictor) (sampler : Sampler)
    (yTrue : Option Predictions) : List Dataset :=
  match yTrue with
  | none => d :: (engineTrace d predict sampler yTrue).loopCalls
  | some _ => (engineTrace d predict sampler yTrue).loopCalls

/-- The number of times the prediction function is invoked during one call. -/
def predictCallCount (d : Dataset) (predict : Predictor) (sampler : Sampler)
    (yTrue : Option Predictions) : Nat :=
  (predictCallLog d predict sampler yTrue).length

/-- Comparison of scored features by score, nondecreasing. -/
def scoreLE (a b : String × ℚ) : Prop :=
  a.2 ≤ b.2

/-- Comparison of scored features by score, nonincreasing. -/
def scoreGE (a b : String × ℚ) : Prop :=
  b.2 ≤ a.2

instance : DecidableRel scoreLE :=
  fun a b => inferInstanceAs (Decidable (a.2 ≤ b.2))

instance : DecidableRel scoreGE :=
  fun a b => inferInstanceAs (Decidable (b.2 ≤ a.2))

instance : IsTotal (String × ℚ) scoreLE :=
  ⟨fun a b => le_total a.2 b.2⟩

instance : IsTrans (String × ℚ) scoreLE :=
  ⟨fun _ _ _ h h' => le_trans h h'⟩

instance : IsTotal (String × ℚ) scoreGE :=
  ⟨fun a b => le_total b.2 a.2⟩

instance : IsTrans (String × ℚ) scoreGE :=
  ⟨fun _ _ _ h h' => le_trans h' h⟩

/-- The sort-values step of the source: stable sort of the scored features by
score, in the requested direction. -/
def sortValues (ascending : Bool) (l : List (String × ℚ)) : List (String × ℚ) :=
  if ascending then l.insertionSort scoreLE else l.insertionSort scoreGE

/-- Division of one score by the series total, modelling floating-point
semantics of the normalization: every reachable score is nonnegative, so the
total is zero exactly when every score is zero, and there the float division
zero over zero yields NaN, modelled as none. -/
def seriesDiv (s total : ℚ) : Option ℚ :=
  if total = 0 then none else some (s / total)

/-- The feature_importance method: compute raw scores per feature, sort them
by score in the requested direction, then divide every score by the sum of
the scores.  Entries are pairs of feature identifier and normalized score,
with none standing for the float NaN arising in the all-zero degenerate
case. -/
def feature_importance (d : Dataset) (predict : Predictor) (sampler : Sampler)
    (ascending : Bool) (yTrue : Option Predictions) :
    List (String × Option ℚ) :=
  let raw := rawImportances d predict sampler yTrue
  let sorted := sortValues ascending raw
  let total := (sorted.map Prod.snd).sum
  sorted.map (fun p => (p.1, seriesDiv p.2 total))

/-- Outcome of attempting to import the plotting library, modelling the
environment the try block of the source runs in: the import succeeds, fails
with an import error (library not installed), or fails with a runtime error
(no display available). -/
inductive MplImport where
  | available : MplImport
  | importError : MplImport
  | runtimeError : MplImport
deriving DecidableEq

/-- The two failure values raised by plot_feature_importance, modelled from
the spec: the exception classes live in the util exceptions module, which is
not part of the analysed source; only their distinctness is used. -/
inductive PlotFailure where
  | matplotlibUnavailable : PlotFailure
  | matplotlibDisplay : PlotFailure
deriving DecidableEq

/-- The plot_feature_importance method up to rendering: the import of the
plotting library is attempted first; an import error raises the unavailable
failure and a runtime error raises the display failure, both before any
importance computation; otherwise the importance series is computed and
handed to the bar-chart rendering. -/
def plot_feature_importance (mpl : MplImport) (d : Dataset)
    (predict : Predictor) (sampler : Sampler) (yTrue : Option Predictions)
    (ascending : Bool) : Except PlotFailure (List (String × Option ℚ)) :=
  match mpl with
  | .importError => .error .matplotlibUnavailable
  | .runtimeError => .error .matplotlibDisplay
  | .available => .ok (feature_importance d predict sampler ascending yTrue)

/-- The number of prediction-function invocations performed by one call of
plot_feature_importance: zero on the failure paths, which raise before the
importance computation starts. -/
def plotPredictCallCount (mpl : MplImport) (d : Dataset)
    (predict : Predictor) (sampler : Sampler)
    (yTrue : Option Predictions) : Nat :=
  match mpl with
  | .available => predictCallCount d predict sampler yTrue
  | .importError => 0
  | .runtimeError => 0

/-- Comparison of possibly-NaN values under IEEE semantics: any comparison
with NaN (modelled as none) is false. -/
def nanLE (a b : Option ℚ) : Bool :=
  match a, b with
  | some x, some y => decide (x ≤ y)
  | _, _ => false

/-- Reverse comparison of possibly-NaN values under IEEE semantics. -/
def nanGE (a b : Option ℚ) : Bool :=
  match a, b with
  | some x, some y => decide (y ≤ x)
  | _, _ => false

/-- Concrete two-row single-feature dataset used to instantiate the general
theorems on an explicit input. -/
def exDataset : Dataset :=
  ⟨[("a", [0, 1])]⟩

/-- Concrete prediction function reading back column a, one output per row. -/
def exPredict : Predictor :=
  fun ds => (ds.getCol "a").map (fun x => [x])

/-- Concrete perturbation draw reversing the two observed values. -/
def exSampler : Sampler :=
  fun _ _ => [1, 0]

/-- Concrete constant-output prediction function. -/
def exConstPredict : Predictor :=
  fun _ => [[3], [4]]

/-- Concrete two-feature one-row dataset whose importance run is degenerate:
every raw score is zero. -/
def exDegDataset : Dataset :=
  ⟨[("a", [0]), ("b", [0])]⟩

/-- Concrete constant prediction function for the degenerate run. -/
def exDegPredict : Predictor :=
  fun _ => [[0]]

/-- Concrete perturbation draw for the degenerate run. -/
def exDegSampler : Sampler :=
  fun _ _ => [0]

/-! Lemmas about column writes. -/

theorem writeCol_writeCol (l : List (String × List ℚ)) (f : String)
    (v w : List ℚ) : writeCol (writeCol l f v) f w = writeCol l f w := by
  unfold writeCol
  rw [List.map_map]
  apply List.map_congr_left
  intro p _
  by_cases h : p.1 = f
  · simp [Function.comp, h]
  · simp [Function.comp, h]

theorem writeCol_lookupCol_self (l : List (String × List ℚ)) (f : String)
    (hnd : (l.map Prod.fst).Nodup) : writeCol l f (lookupCol l f) = l := by
  induction l with
  | nil => rfl
  | cons p t ih =>
    simp only [List.map_cons, List.nodup_cons, List.mem_map] at hnd
    obtain ⟨hp, ht⟩ := hnd
    by_cases h : p.1 = f
    · have hb : (p.1 == f) = true := by simp [h]
      have hlook : lookupCol (p :: t) f = p.2 := by
        unfold lookupCol
        simp [List.find?_cons, hb]
      have htail : ∀ q ∈ t, (q.1 == f) = false := by
        intro q hq
        simp only [beq_eq_false_iff_ne]
        intro e
        exact hp ⟨q, hq, by rw [e, h]⟩
      rw [hlook]
      unfold writeCol
      simp only [List.map_cons, hb, if_true]
      congr 1
      calc t.map (fun q => if q.1 == f then (q.1, p.2) else q)
          = t.map id := List.map_congr_left (fun q hq => by simp [htail q hq])
        _ = t := List.map_id t
    · have hb : ¬((p.1 == f) = true) := by simp [h]
      have hlook : lookupCol (p :: t) f = lookupCol t f := by
        unfold lookupCol
        simp [List.find?_cons, hb]
      rw [hlook]
      unfold writeCol
      simp only [List.map_cons]
      rw [if_neg (by simp [h])]
      have := ih ht
      unfold writeCol at this
      rw [this]

theorem setCol_setCol (d : Dataset) (f : String) (v w : List ℚ) :
    (d.setCol f v).setCol f w = d.setCol f w := by
  unfold Dataset.setCol
  rw [writeCol_writeCol]

theorem setCol_getCol_self (d : Dataset) (f : String)
    (hnd : (d.features.map Prod.fst).Nodup) :
    d.setCol f (d.getCol f) = d := by
  unfold Dataset.setCol Dataset.getCol
  rw [writeCol_lookupCol_self _ _ hnd]

/-! Lemmas about the numeric primitives. -/

theorem ratSqrt_nonneg (q : ℚ) : 0 ≤ ratSqrt q := by
  unfold ratSqrt
  exact div_nonneg (Nat.cast_nonneg _) (Nat.cast_nonneg _)

theorem ratSqrt_zero : ratSqrt 0 = 0 := by
  simp [ratSqrt, natSqrtBelow]

theorem npMean_nonneg {xs : List ℚ} (h : ∀ x ∈ xs, 0 ≤ x) : 0 ≤ npMean xs := by
  unfold npMean
  exact div_nonneg (List.sum_nonneg h) (Nat.cast_nonneg _)

theorem stdPop_nonneg (xs : List ℚ) : 0 ≤ stdPop xs :=
  ratSqrt_nonneg _

theorem npMean_npStdAxis0_nonneg (m : Predictions) :
    0 ≤ npMean (npStdAxis0 m) := by
  apply npMean_nonneg
  intro x hx
  unfold npStdAxis0 at hx
  obtain ⟨c, _, rfl⟩ := List.mem_map.mp hx
  exact stdPop_nonneg c

theorem sum_map_div (l : List ℚ) (t : ℚ) :
    (l.map (fun s => s / t)).sum = l.sum / t := by
  induction l with
  | nil => simp
  | cons x xs ih => simp [ih, add_div]

theorem le_sum_of_mem_nonneg {l : List ℚ} (h : ∀ x ∈ l, 0 ≤ x) {x : ℚ}
    (hx : x ∈ l) : x ≤ l.sum := by
  induction l with
  | nil => cases hx
  | cons y t ih =>
    rw [List.sum_cons]
    rcases List.mem_cons.mp hx with rfl | hx'
    · exact le_add_of_nonneg_right
        (List.sum_nonneg (fun z hz => h z (List.mem_cons_of_mem _ hz)))
    · exact le_add_of_nonneg_left (h y (List.mem_cons_self _ _)) |>.trans'
        (ih (fun z hz => h z (List.mem_cons_of_mem _ hz)) hx')

/-! Lemmas about the per-feature loop. -/

theorem dataManagerCopy_eq (d : Dataset) : dataManagerCopy d = d :=
  rfl

theorem impLoop_run (orig : Dataset) (predict : Predictor)
    (baseline : Predictions) (sampler : Sampler) (n : Nat)
    (hnd : (orig.features.map Prod.fst).Nodup) :
    ∀ fs : List String,
      impLoop orig predict baseline sampler n fs orig =
        ⟨fs.map (fun f => (f, scoreAt orig predict baseline sampler n f)),
          List.replicate fs.length orig, orig,
          fs.map (fun f => orig.setCol f (sampler f n))⟩ := by
  intro fs
  induction fs with
  | nil => rfl
  | cons f fs ih =>
    simp only [impLoop]
    rw [setCol_setCol, setCol_getCol_self _ _ hnd, ih]
    rfl

theorem impLoop_rawScores_nonneg (orig : Dataset) (predict : Predictor)
    (baseline : Predictions) (sampler : Sampler) (n : Nat) :
    ∀ (fs : List String) (copy : Dataset),
      ∀ p ∈ (impLoop orig predict baseline sampler n fs copy).rawScores,
        0 ≤ p.2 := by
  intro fs
  induction fs with
  | nil =>
    intro copy p hp
    simp [impLoop] at hp
  | cons f fs ih =>
    intro copy p hp
    simp only [impLoop] at hp
    rcases List.mem_cons.mp hp with rfl | hp'
    · exact npMean_npStdAxis0_nonneg _
    · exact ih _ p hp'

theorem impLoop_rawScores_length (orig : Dataset) (predict : Predictor)
    (baseline : Predictions) (sampler : Sampler) (n : Nat) :
    ∀ (fs : List String) (copy : Dataset),
      (impLoop orig predict baseline sampler n fs copy).rawScores.length
        = fs.length := by
  intro fs
  induction fs with
  | nil => intro copy; rfl
  | cons f fs ih =>
    intro copy
    simp only [impLoop, List.length_cons]
    rw [ih]

theorem impLoop_loopCalls_length (orig : Dataset) (predict : Predictor)
    (baseline : Predictions) (sampler : Sampler) (n : Nat) :
    ∀ (fs : List String) (copy : Dataset),
      (impLoop orig predict baseline sampler n fs copy).loopCalls.length
        = fs.length := by
  intro fs
  induction fs with
  | nil => intro copy; rfl
  | cons f fs ih =>
    intro copy
    simp only [impLoop, List.length_cons]
    rw [ih]

theorem engineTrace_run (d : Dataset) (predict : Predictor) (sampler : Sampler)
    (yTrue : Option Predictions)
    (hnd : (d.features.map Prod.fst).Nodup) :
    engineTrace d predict sampler yTrue =
      ⟨d.featureIds.map (fun f =>
          (f, scoreAt d predict (baselineOf d predict yTrue) sampler
            (baselineOf d predict yTrue).length f)),
        List.replicate d.featureIds.length d, d,
        d.featureIds.map (fun f =>
          d.setCol f (sampler f (baselineOf d predict yTrue).length))⟩ := by
  simp only [engineTrace]
  rw [dataManagerCopy_eq, impLoop_run _ _ _ _ _ hnd]

theorem rawImportances_eq (d : Dataset) (predict : Predictor)
    (sampler : Sampler) (yTrue : Option Predictions)
    (hnd : (d.features.map Prod.fst).Nodup) :
    rawImportances d predict sampler yTrue =
      d.featureIds.map (fun f =>
        (f, scoreAt d predict (baselineOf d predict yTrue) sampler
          (baselineOf d predict yTrue).length f)) := by
  unfold rawImportances
  rw [engineTrace_run _ _ _ _ hnd]

theorem rawImportances_nonneg (d : Dataset) (predict : Predictor)
    (sampler : Sampler) (yTrue : Option Predictions) :
    ∀ p ∈ rawImportances d predict sampler yTrue, 0 ≤ p.2 := by
  unfold rawImportances engineTrace
  exact impLoop_rawScores_nonneg _ _ _ _ _ _ _

theorem rawImportances_length (d : Dataset) (predict : Predictor)
    (sampler : Sampler) (yTrue : Option Predictions) :
    (rawImportances d predict sampler yTrue).length = d.featureIds.length := by
  unfold rawImportances engineTrace
  exact impLoop_rawScores_length _ _ _ _ _ _ _

theorem lookup_map_pair {α β : Type} [BEq α] [LawfulBEq α] (g : α → β) :
    ∀ (l : List α) (a : α), a ∈ l →
      List.lookup a (l.map (fun x => (x, g x))) = some (g a) := by
  intro l
  induction l with
  | nil => intro a ha; cases ha
  | cons x t ih =>
    intro a ha
    by_cases h : a = x
    · simp [List.lookup, h]
    · have : (a == x) = false := by simp [h]
      rcases List.mem_cons.mp ha with rfl | ha'
      · simp at h
      · simp [List.lookup, this, ih a ha']

/-! Lemmas about all-zero prediction changes. -/

theorem getD_zero_of_all_zero {row : List ℚ} (h : ∀ x ∈ row, x = 0)
    (j : Nat) : row.getD j 0 = 0 := by
  induction row generalizing j with
  | nil => simp
  | cons y t ih =>
    cases j with
    | zero => simpa using h y (List.mem_cons_self _ _)
    | succ j =>
      simp only [List.getD_cons_succ]
      exact ih (fun x hx => h x (List.mem_cons_of_mem _ hx)) j

theorem stdPop_all_zero {c : List ℚ} (h : ∀ x ∈ c, x = 0) : stdPop c = 0 := by
  have hm : npMean c = 0 := by
    unfold npMean
    rw [List.sum_eq_zero h, zero_div]
  unfold stdPop
  rw [hm]
  have hsq : c.map (fun x => (x - 0) ^ 2) = c.map (fun _ => (0 : ℚ)) :=
    List.map_congr_left (fun x hx => by rw [h x hx]; simp)
  rw [hsq]
  have hz : npMean (c.map fun _ => (0 : ℚ)) = 0 := by
    unfold npMean
    rw [List.sum_eq_zero, zero_div]
    intro x hx
    obtain ⟨y, _, h'⟩ := List.mem_map.mp hx
    exact h'.symm
  rw [hz, ratSqrt_zero]

theorem matSub_self_all_zero (a : Predictions) :
    ∀ row ∈ matSub a a, ∀ x ∈ row, x = (0 : ℚ) := by
  intro row hrow x hx
  unfold matSub at hrow
  rw [List.zipWith_same] at hrow
  obtain ⟨r, _, rfl⟩ := List.mem_map.mp hrow
  rw [List.zipWith_same] at hx
  obtain ⟨y, _, h'⟩ := List.mem_map.mp hx
  rw [← h']
  exact sub_self y

theorem npMean_npStdAxis0_matSub_self (a : Predictions) :
    npMean (npStdAxis0 (matSub a a)) = 0 := by
  have hcols : ∀ c ∈ colsOf (matSub a a), ∀ x ∈ c, x = (0 : ℚ) := by
    intro c hc x hx
    unfold colsOf at hc
    obtain ⟨j, _, rfl⟩ := List.mem_map.mp hc
    obtain ⟨row, hrow, h'⟩ := List.mem_map.mp hx
    rw [← h']
    exact getD_zero_of_all_zero (matSub_self_all_zero a row hrow) j
  have hstd : ∀ s ∈ npStdAxis0 (matSub a a), s = (0 : ℚ) := by
    intro s hs
    unfold npStdAxis0 at hs
    obtain ⟨c, hc, h'⟩ := List.mem_map.mp hs
    rw [← h']
    exact stdPop_all_zero (hcols c hc)
  unfold npMean
  rw [List.sum_eq_zero hstd, zero_div]

theorem impLoop_const_rawScores (orig : Dataset) (predict : Predictor)
    (sampler : Sampler) (n : Nat) (out : Predictions)
    (hconst : ∀ ds, predict ds = out) :
    ∀ (fs : List String) (copy : Dataset),
      (impLoop orig predict out sampler n fs copy).rawScores.map Prod.snd
        = List.replicate fs.length 0 := by
  intro fs
  induction fs with
  | nil => intro copy; rfl
  | cons f fs ih =>
    intro copy
    simp only [impLoop, List.map_cons, List.replicate_succ]
    rw [hconst, npMean_npStdAxis0_matSub_self, ih]
    simp [List.replicate_succ]

/-! Lemmas about sorting and normalization. -/

theorem sortValues_perm (asc : Bool) (l : List (String × ℚ)) :
    List.Perm (sortValues asc l) l := by
  cases asc
  · simp only [sortValues, Bool.false_eq_true, if_false]
    exact List.perm_insertionSort _ _
  · simp only [sortValues, if_true]
    exact List.perm_insertionSort _ _

theorem sortValues_true_sorted (l : List (String × ℚ)) :
    List.Sorted scoreLE (sortValues true l) :=
  List.sorted_insertionSort scoreLE l

theorem sortValues_false_sorted (l : List (String × ℚ)) :
    List.Sorted scoreGE (sortValues false l) :=
  List.sorted_insertionSort scoreGE l

theorem list_range_one : List.range 1 = [0] := by
  rfl

/-! Claim theorems. -/

/-- C1: for every feature of the dataset, the raw importance score recorded
by feature_importance equals the mean, across prediction-output columns, of
the standard deviation across rows of the elementwise difference between the
predictions on the dataset with that feature column replaced by the
perturbation samples and the baseline predictions. -/
theorem feature_importance_raw_score_formula (d : Dataset)
    (predict : Predictor) (sampler : Sampler) (yTrue : Option Predictions)
    (hnd : (d.features.map Prod.fst).Nodup) (f : String)
    (hf : f ∈ d.featureIds) :
    List.lookup f (rawImportances d predict sampler yTrue) =
      some (npMean (npStdAxis0 (matSub
        (predict (d.setCol f
          (sampler f (baselineOf d predict yTrue).length)))
        (baselineOf d predict yTrue)))) := by
  rw [rawImportances_eq _ _ _ _ hnd]
  exact lookup_map_pair _ _ _ hf

/-- Witness for C1 on the concrete dataset. -/
theorem feature_importance_raw_score_formula_inst :
    List.lookup "a" (rawImportances exDataset exPredict exSampler none) =
      some (npMean (npStdAxis0 (matSub
        (exPredict (exDataset.setCol "a"
          (exSampler "a" (baselineOf exDataset exPredict none).length)))
        (baselineOf exDataset exPredict none)))) :=
  feature_importance_raw_score_formula exDataset exPredict exSampler none
    (by simp [exDataset]) "a" (by simp [exDataset, Dataset.featureIds])

/-- C2: the engine mutates only the private working copy: the copy equals the
original dataset at the start of every feature iteration (each perturbed
column is restored before the next feature), and the copy left after the loop
equals the original as well; the original dataset itself is a value never
written by the embedded computation. -/
theorem feature_importance_restores_working_copy (d : Dataset)
    (predict : Predictor) (sampler : Sampler) (yTrue : Option Predictions)
    (hnd : (d.features.map Prod.fst).Nodup) :
    (engineTrace d predict sampler yTrue).copyStarts
        = List.replicate d.featureIds.length d ∧
    (engineTrace d predict sampler yTrue).finalCopy = d := by
  rw [engineTrace_run _ _ _ _ hnd]
  exact ⟨rfl, rfl⟩

/-- Witness for C2 on the concrete dataset. -/
theorem feature_importance_restores_working_copy_inst :
    (engineTrace exDataset exPredict exSampler none).copyStarts
        = List.replicate exDataset.featureIds.length exDataset ∧
    (engineTrace exDataset exPredict exSampler none).finalCopy = exDataset :=
  feature_importance_restores_working_copy exDataset exPredict exSampler none
    (by simp [exDataset])

/-- C4: the identifiers of the returned series are a permutation of the
dataset feature identifiers, hence equal as sets with no omissions and no
extras. -/
theorem feature_importance_keys_perm (d : Dataset) (predict : Predictor)
    (sampler : Sampler) (asc : Bool) (yTrue : Option Predictions)
    (hnd : (d.features.map Prod.fst).Nodup) :
    List.Perm ((feature_importance d predict sampler asc yTrue).map Prod.fst)
      d.featureIds := by
  have h1 : (feature_importance d predict sampler asc yTrue).map Prod.fst
      = (sortValues asc (rawImportances d predict sampler yTrue)).map
          Prod.fst := by
    simp only [feature_importance]
    rw [List.map_map]
    rfl
  rw [h1]
  refine ((sortValues_perm asc _).map Prod.fst).trans ?_
  rw [rawImportances_eq _ _ _ _ hnd, List.map_map]
  have h2 : (Prod.fst ∘ fun f => (f,
      scoreAt d predict (baselineOf d predict yTrue) sampler
        (baselineOf d predict yTrue).length f)) = id := rfl
  rw [h2, List.map_id]

/-- Witness for C4 on the concrete dataset. -/
theorem feature_importance_keys_perm_inst :
    List.Perm
      ((feature_importance exDataset exPredict exSampler true none).map
        Prod.fst)
      exDataset.featureIds :=
  feature_importance_keys_perm exDataset exPredict exSampler true none
    (by simp [exDataset])

/-- C6: a supplied ground-truth array is used as the baseline in place of a
prediction on the unperturbed dataset, and the prediction call log then holds
exactly the per-feature perturbed copies, with no call on the unperturbed
dataset for the baseline; with no ground truth the baseline is the prediction
on the unperturbed dataset, which is the first call in the log. -/
theorem feature_importance_baseline_substitution (d : Dataset)
    (predict : Predictor) (sampler : Sampler) (ys : Predictions)
    (hnd : (d.features.map Prod.fst).Nodup) :
    baselineOf d predict (some ys) = ys ∧
    predictCallLog d predict sampler (some ys)
        = d.featureIds.map (fun f => d.setCol f (sampler f ys.length)) ∧
    baselineOf d predict none = predict d ∧
    predictCallLog d predict sampler none
        = d :: d.featureIds.map (fun f =>
            d.setCol f (sampler f (predict d).length)) := by
  refine ⟨rfl, ?_, rfl, ?_⟩
  · show (engineTrace d predict sampler (some ys)).loopCalls = _
    rw [engineTrace_run _ _ _ _ hnd]
    rfl
  · show d :: (engineTrace d predict sampler none).loopCalls = _
    rw [engineTrace_run _ _ _ _ hnd]
    rfl

/-- Witness for C6 on the concrete dataset. -/
theorem feature_importance_baseline_substitution_inst :
    baselineOf exDataset exPredict (some [[5], [6]]) = [[5], [6]] ∧
    predictCallLog exDataset exPredict exSampler (some [[5], [6]])
        = exDataset.featureIds.map (fun f =>
            exDataset.setCol f (exSampler f [[(5 : ℚ)], [6]].length)) ∧
    baselineOf exDataset exPredict none = exPredict exDataset ∧
    predictCallLog exDataset exPredict exSampler none
        = exDataset :: exDataset.featureIds.map (fun f =>
            exDataset.setCol f (exSampler f (exPredict exDataset).length)) :=
  feature_importance_baseline_substitution exDataset exPredict exSampler
    [[5], [6]] (by simp [exDataset])

/-- C8 counterexample: with no ground truth supplied, the concrete single
feature run invokes the prediction function twice, once for the baseline and
once for the feature, so the total is not the number of features. -/
theorem predict_invocation_count_cex :
    predictCallCount exDataset exPredict exSampler none
      ≠ exDataset.featureIds.length := by
  decide

/-- C8 amended: the prediction function is invoked once per feature plus one
baseline invocation when no ground truth is supplied, so the total equals the
feature count exactly when ground truth is supplied, and the feature count
plus one otherwise. -/
theorem predict_invocation_count (d : Dataset) (predict : Predictor)
    (sampler : Sampler) (yTrue : Option Predictions) :
    predictCallCount d predict sampler yTrue
      = d.featureIds.length + (if yTrue.isSome then 0 else 1) := by
  cases yTrue with
  | none =>
    show (d :: (engineTrace d predict sampler none).loopCalls).length = _
    rw [List.length_cons]
    unfold engineTrace
    rw [impLoop_loopCalls_length]
    simp
  | some ys =>
    show ((engineTrace d predict sampler (some ys)).loopCalls).length = _
    unfold engineTrace
    rw [impLoop_loopCalls_length]
    simp

/-- C9: on a dataset with zero feature columns the call returns the empty
series; the embedded computation is total, so no exception arises. -/
theorem feature_importance_no_features (predict : Predictor)
    (sampler : Sampler) (yTrue : Option Predictions) (asc : Bool) :
    feature_importance ⟨[]⟩ predict sampler asc yTrue = [] := by
  simp [feature_importance, rawImportances, engineTrace, impLoop,
    sortValues, Dataset.featureIds, dataManagerCopy]

/-- C10: the import-error outcome of loading the plotting library yields
exactly the matplotlib-unavailable failure, the runtime-error outcome yields
exactly the matplotlib-display failure, the available outcome yields the
computed importance series, and on both failure outcomes the prediction
function is never invoked, so the failure precedes any importance
computation. -/
theorem plot_feature_importance_failure_modes (d : Dataset)
    (predict : Predictor) (sampler : Sampler) (yTrue : Option Predictions)
    (asc : Bool) :
    plot_feature_importance .importError d predict sampler yTrue asc
        = Except.error .matplotlibUnavailable ∧
    plot_feature_importance .runtimeError d predict sampler yTrue asc
        = Except.error .matplotlibDisplay ∧
    plot_feature_importance .available d predict sampler yTrue asc
        = Except.ok (feature_importance d predict sampler asc yTrue) ∧
    plotPredictCallCount .importError d predict sampler yTrue = 0 ∧
    plotPredictCallCount .runtimeError d predict sampler yTrue = 0 :=
  ⟨rfl, rfl, rfl, rfl, rfl⟩

/-- C3: away from the all-zero degenerate case, every returned normalized
score is a genuine nonnegative value and the normalized scores sum to one
exactly. -/
theorem feature_importance_normalized_distribution (d : Dataset)
    (predict : Predictor) (sampler : Sampler) (asc : Bool)
    (yTrue : Option Predictions)
    (hne : d.featureIds ≠ [])
    (hnz : ∃ p ∈ rawImportances d predict sampler yTrue, p.2 ≠ 0) :
    (∀ p ∈ feature_importance d predict sampler asc yTrue,
        ∃ q, p.2 = some q ∧ 0 ≤ q) ∧
    ((feature_importance d predict sampler asc yTrue).map
        (fun p => p.2.getD 0)).sum = 1 := by
  have hnn : ∀ p ∈ sortValues asc (rawImportances d predict sampler yTrue),
      0 ≤ p.2 := fun p hp =>
    rawImportances_nonneg d predict sampler yTrue p
      ((sortValues_perm asc _).subset hp)
  have hmem : ∃ p ∈ sortValues asc (rawImportances d predict sampler yTrue),
      p.2 ≠ 0 := by
    obtain ⟨p, hp, hpne⟩ := hnz
    exact ⟨p, (sortValues_perm asc _).mem_iff.mpr hp, hpne⟩
  rw [show feature_importance d predict sampler asc yTrue
      = (sortValues asc (rawImportances d predict sampler yTrue)).map
          (fun p => (p.1, seriesDiv p.2
            (((sortValues asc (rawImportances d predict sampler yTrue)).map
              Prod.snd).sum))) from rfl]
  revert hnn hmem
  generalize sortValues asc (rawImportances d predict sampler yTrue) = L
  intro hnn hmem
  obtain ⟨p, hpL, hpne⟩ := hmem
  have hle : p.2 ≤ (L.map Prod.snd).sum :=
    le_sum_of_mem_nonneg
      (fun x hx => by
        obtain ⟨q, hq, h'⟩ := List.mem_map.mp hx
        exact h' ▸ hnn q hq)
      (List.mem_map_of_mem Prod.snd hpL)
  have htpos : 0 < (L.map Prod.snd).sum :=
    lt_of_lt_of_le (lt_of_le_of_ne (hnn p hpL) (Ne.symm hpne)) hle
  have ht0 : (L.map Prod.snd).sum ≠ 0 := ne_of_gt htpos
  constructor
  · intro x hx
    obtain ⟨q, hq, h'⟩ := List.mem_map.mp hx
    refine ⟨q.2 / (L.map Prod.snd).sum, ?_, div_nonneg (hnn q hq) htpos.le⟩
    rw [← h']
    simp [seriesDiv, ht0]
  · rw [List.map_map]
    have hcomp : ((fun p : String × Option ℚ => p.2.getD 0) ∘
        (fun p : String × ℚ =>
          (p.1, seriesDiv p.2 (L.map Prod.snd).sum)))
        = fun p : String × ℚ => p.2 / (L.map Prod.snd).sum := by
      funext q
      simp [seriesDiv, ht0]
    rw [hcomp]
    have hsplit : L.map (fun p => p.2 / (L.map Prod.snd).sum)
        = (L.map Prod.snd).map (fun s => s / (L.map Prod.snd).sum) := by
      rw [List.map_map]
      rfl
    rw [hsplit, sum_map_div, div_self ht0]

/-- Witness for C3 on the concrete dataset, which has a nonzero raw score. -/
theorem feature_importance_normalized_distribution_inst :
    (∀ p ∈ feature_importance exDataset exPredict exSampler true none,
        ∃ q, p.2 = some q ∧ 0 ≤ q) ∧
    ((feature_importance exDataset exPredict exSampler true none).map
        (fun p => p.2.getD 0)).sum = 1 :=
  feature_importance_normalized_distribution exDataset exPredict exSampler
    true none (by simp [exDataset, Dataset.featureIds])
    (by simp [rawImportances, engineTrace, impLoop, baselineOf, exDataset,
      exPredict, exSampler, Dataset.featureIds, Dataset.getCol,
      Dataset.setCol, lookupCol, writeCol, dataManagerCopy, List.find?,
      scoreAt, npMean, npStdAxis0, colsOf, stdPop, ratSqrt, natSqrtBelow,
      matSub, list_range_one, List.getElem?_cons_zero, Option.getD_some])

/-- C7 counterexample: a pure, hence deterministic, prediction function that
reads the feature back produces a nonzero raw importance score on the
concrete dataset, so determinism of the prediction function alone does not
make all raw scores zero. -/
theorem deterministic_predict_nonzero_score_cex :
    rawImportances exDataset exPredict exSampler none = [("a", 1)] ∧
    (1 : ℚ) ≠ 0 := by
  constructor
  · simp [rawImportances, engineTrace, impLoop, baselineOf, exDataset,
      exPredict, exSampler, Dataset.featureIds, Dataset.getCol,
      Dataset.setCol, lookupCol, writeCol, dataManagerCopy, List.find?,
      scoreAt, npMean, npStdAxis0, colsOf, stdPop, ratSqrt, natSqrtBelow,
      matSub, list_range_one, List.getElem?_cons_zero, Option.getD_some]
  · exact one_ne_zero

/-- C7 amended: with a constant-output prediction function and no supplied
ground truth, every raw importance score is zero, and normalization turns
every returned score into the NaN marker of the degenerate sum-to-zero case;
the embedded computation is total, so no exception arises. -/
theorem feature_importance_constant_predict_degenerate (d : Dataset)
    (predict : Predictor) (sampler : Sampler) (asc : Bool)
    (out : Predictions) (hconst : ∀ ds, predict ds = out) :
    (rawImportances d predict sampler none).map Prod.snd
        = List.replicate d.featureIds.length 0 ∧
    (feature_importance d predict sampler asc none).map Prod.snd
        = List.replicate d.featureIds.length none := by
  have hbase : baselineOf d predict none = out := hconst d
  have h1 : (rawImportances d predict sampler none).map Prod.snd
      = List.replicate d.featureIds.length 0 := by
    unfold rawImportances engineTrace
    rw [hbase]
    exact impLoop_const_rawScores d predict sampler _ out hconst _ _
  have hz : ∀ p ∈ sortValues asc (rawImportances d predict sampler none),
      p.2 = 0 := by
    intro p hp
    have hpr : p ∈ rawImportances d predict sampler none :=
      (sortValues_perm asc _).subset hp
    have hm : p.2 ∈ (rawImportances d predict sampler none).map Prod.snd :=
      List.mem_map_of_mem Prod.snd hpr
    rw [h1] at hm
    exact List.eq_of_mem_replicate hm
  refine ⟨h1, ?_⟩
  rw [show feature_importance d predict sampler asc none
      = (sortValues asc (rawImportances d predict sampler none)).map
          (fun p => (p.1, seriesDiv p.2
            (((sortValues asc (rawImportances d predict sampler none)).map
              Prod.snd).sum))) from rfl]
  have htot : ((sortValues asc (rawImportances d predict sampler none)).map
      Prod.snd).sum = 0 :=
    List.sum_eq_zero (by
      intro x hx
      obtain ⟨q, hq, h'⟩ := List.mem_map.mp hx
      rw [← h']
      exact hz q hq)
  rw [List.map_map]
  have hcomp : (Prod.snd ∘ (fun p : String × ℚ =>
      (p.1, seriesDiv p.2
        (((sortValues asc (rawImportances d predict sampler none)).map
          Prod.snd).sum))))
      = fun _ : String × ℚ => (none : Option ℚ) := by
    funext q
    simp [Function.comp, seriesDiv, htot]
  rw [hcomp, List.map_const']
  have hlen : (sortValues asc (rawImportances d predict sampler none)).length
      = d.featureIds.length :=
    ((sortValues_perm asc _).length_eq).trans
      (rawImportances_length d predict sampler none)
  rw [hlen]

/-- Witness for the amended C7 on the concrete constant prediction
function. -/
theorem feature_importance_constant_predict_degenerate_inst :
    (rawImportances exDataset exConstPredict exSampler none).map Prod.snd
        = List.replicate exDataset.featureIds.length 0 ∧
    (feature_importance exDataset exConstPredict exSampler true none).map
        Prod.snd
        = List.replicate exDataset.featureIds.length none :=
  feature_importance_constant_predict_degenerate exDataset exConstPredict
    exSampler true [[3], [4]] (fun _ => rfl)

/-- C5 counterexample: on a degenerate run where every raw score is zero, the
normalized scores are all the NaN marker, and under IEEE comparison a NaN is
not less-or-equal anything, so the returned series is not non-decreasing even
though ascending order was requested. -/
theorem degenerate_not_nondecreasing_cex :
    ¬ List.Pairwise (fun a b : String × Option ℚ => nanLE a.2 b.2 = true)
        (feature_importance exDegDataset exDegPredict exDegSampler true
          none) := by
  have hres : feature_importance exDegDataset exDegPredict exDegSampler true
      none = [("a", none), ("b", none)] := by
    simp [feature_importance, rawImportances, engineTrace, impLoop,
      baselineOf, exDegDataset, exDegPredict, exDegSampler,
      Dataset.featureIds, Dataset.getCol, Dataset.setCol, lookupCol,
      writeCol, dataManagerCopy, List.find?, scoreAt, npMean, npStdAxis0,
      colsOf, stdPop, ratSqrt, natSqrtBelow, matSub, sortValues,
      List.insertionSort, List.orderedInsert, scoreLE, seriesDiv, list_range_one, List.getElem?_cons_zero, Option.getD_some]
  rw [hres]
  simp [List.pairwise_cons, nanLE]

/-- C5 amended: away from the all-zero degenerate case, requesting ascending
order yields a series whose scores are non-decreasing in iteration order and
requesting descending order yields non-increasing scores; dividing every
score by the positive total preserves the sorted order. -/
theorem feature_importance_sorted_by_direction (d : Dataset)
    (predict : Predictor) (sampler : Sampler) (yTrue : Option Predictions)
    (hnz : ∃ p ∈ rawImportances d predict sampler yTrue, p.2 ≠ 0) :
    List.Pairwise (fun a b : String × Option ℚ => nanLE a.2 b.2 = true)
        (feature_importance d predict sampler true yTrue) ∧
    List.Pairwise (fun a b : String × Option ℚ => nanGE a.2 b.2 = true)
        (feature_importance d predict sampler false yTrue) := by
  constructor
  · have hnn : ∀ p ∈ sortValues true (rawImportances d predict sampler yTrue),
        0 ≤ p.2 := fun p hp =>
      rawImportances_nonneg d predict sampler yTrue p
        ((sortValues_perm true _).subset hp)
    obtain ⟨p, hp, hpne⟩ := hnz
    have hpL : p ∈ sortValues true (rawImportances d predict sampler yTrue) :=
      (sortValues_perm true _).mem_iff.mpr hp
    have htpos : 0 < ((sortValues true
        (rawImportances d predict sampler yTrue)).map Prod.snd).sum :=
      lt_of_lt_of_le (lt_of_le_of_ne (hnn p hpL) (Ne.symm hpne))
        (le_sum_of_mem_nonneg
          (fun x hx => by
            obtain ⟨q, hq, h'⟩ := List.mem_map.mp hx
            exact h' ▸ hnn q hq)
          (List.mem_map_of_mem Prod.snd hpL))
    have ht0 := ne_of_gt htpos
    rw [show feature_importance d predict sampler true yTrue
        = (sortValues true (rawImportances d predict sampler yTrue)).map
            (fun p => (p.1, seriesDiv p.2
              (((sortValues true (rawImportances d predict sampler
                yTrue)).map Prod.snd).sum))) from rfl]
    refine (sortValues_true_sorted
      (rawImportances d predict sampler yTrue)).map _ ?_
    intro a b hab
    have hdiv := (div_le_div_iff_of_pos_right htpos).mpr hab
    simp [nanLE, seriesDiv, ht0, hdiv]
  · have hnn : ∀ p ∈ sortValues false
        (rawImportances d predict sampler yTrue), 0 ≤ p.2 := fun p hp =>
      rawImportances_nonneg d predict sampler yTrue p
        ((sortValues_perm false _).subset hp)
    obtain ⟨p, hp, hpne⟩ := hnz
    have hpL : p ∈ sortValues false
        (rawImportances d predict sampler yTrue) :=
      (sortValues_perm false _).mem_iff.mpr hp
    have htpos : 0 < ((sortValues false
        (rawImportances d predict sampler yTrue)).map Prod.snd).sum :=
      lt_of_lt_of_le (lt_of_le_of_ne (hnn p hpL) (Ne.symm hpne))
        (le_sum_of_mem_nonneg
          (fun x hx => by
            obtain ⟨q, hq, h'⟩ := List.mem_map.mp hx
            exact h' ▸ hnn q hq)
          (List.mem_map_of_mem Prod.snd hpL))
    have ht0 := ne_of_gt htpos
    rw [show feature_importance d predict sampler false yTrue
        = (sortValues false (rawImportances d predict sampler yTrue)).map
            (fun p => (p.1, seriesDiv p.2
              (((sortValues false (rawImportances d predict sampler
                yTrue)).map Prod.snd).sum))) from rfl]
    refine (sortValues_false_sorted
      (rawImportances d predict sampler yTrue)).map _ ?_
    intro a b hab
    have hdiv := (div_le_div_iff_of_pos_right htpos).mpr hab
    simp [nanGE, seriesDiv, ht0, hdiv]

/-- Witness for the amended C5 on the concrete dataset. -/
theorem feature_importance_sorted_by_direction_inst :
    List.Pairwise (fun a b : String × Option ℚ => nanLE a.2 b.2 = true)
        (feature_importance exDataset exPredict exSampler true none) ∧
    List.Pairwise (fun a b : String × Option ℚ => nanGE a.2 b.2 = true)
        (feature_importance exDataset exPredict exSampler false none) :=
  feature_importance_sorted_by_direction exDataset exPredict exSampler none
    (by simp [rawImportances, engineTrace, impLoop, baselineOf, exDataset,
      exPredict, exSampler, Dataset.featureIds, Dataset.getCol,
      Dataset.setCol, lookupCol, writeCol, dataManagerCopy, List.find?,
      scoreAt, npMean, npStdAxis0, colsOf, stdPop, ratSqrt, natSqrtBelow,
      matSub, list_range_one, List.getElem?_cons_zero, Option.getD_some])

end Lynxes
